import Mathlib

/-!
Verification development for the RAG-with-source-citations backend.

The development shallowly embeds the two Python modules of the repository:

* `backend/ingestion.py` — the PDF paragraph segmenter (`parse_pdf_chunks`)
  and the batch ingestion driver (`main`), and
* `backend/main.py` — the query orchestrator (`analyze_document`) with its
  upload validation (`validate_file`), query composition, citation block
  rendering and prompt assembly.

External collaborators (PyMuPDF page loading, the Ollama embedding client,
the Qdrant vector store, LlamaParse, the completion LLM) are modelled as
explicit environment records of functions and outcome values; the control
flow around them is translated statement by statement from the source.
Python floats (block coordinates, scores) are modelled as rationals,
Python exceptions as `Except`, and the observable external calls of the
query path as an explicit trace list, so that "no call is made" claims are
statements about the trace.
-/

namespace RAGCite

/-! ### Whitespace normalization

`parse_pdf_chunks` uses Python's `str.strip()` and `re.sub(r"\s+", " ", t)`.
`isWs` models Python's whitespace class via `Char.isWhitespace`. -/

/-- Model of Python's whitespace class (for `strip` and `\s`). -/
def isWs (c : Char) : Bool := c.isWhitespace

/-- Remove leading and trailing whitespace characters of a character list. -/
def stripList (l : List Char) : List Char :=
  ((l.dropWhile isWs).reverse.dropWhile isWs).reverse

/-- Model of Python's `str.strip()`. -/
def pyStrip (s : String) : String := String.mk (stripList s.data)

/-- Model of `re.sub(r"\s+", " ", ·)` on the character list: every maximal
run of whitespace characters is replaced by a single space.  The boolean
argument records whether the previously seen character was whitespace
(so a run already emitted its single space). -/
def collapseWs : List Char → Bool → List Char
  | [], _ => []
  | c :: rest, prevWs =>
    if isWs c then
      if prevWs then collapseWs rest true else ' ' :: collapseWs rest true
    else c :: collapseWs rest false

/-- Model of `re.sub(r"\s+", " ", t).strip()` — the normalization applied
to a paragraph accumulator before it is emitted. -/
def cleanText (s : String) : String :=
  String.mk (stripList (collapseWs s.data false))

/-! ### The segmenter (`parse_pdf_chunks`, backend/ingestion.py lines 81–137) -/

/-- One PyMuPDF text block `(x0, y0, x1, y1, text, …)`; coordinates are
floats in the source, modelled as rationals. -/
structure Block where
  x0 : ℚ
  y0 : ℚ
  x1 : ℚ
  y1 : ℚ
  text : String

/-- One yielded chunk dictionary
`{"page_number": …, "paragraph_number": …, "text": …}`. -/
structure ParagraphChunk where
  page_number : Nat
  paragraph_number : Nat
  text : String
deriving DecidableEq

/-- The loop state of `parse_pdf_chunks` for one page: the variables
`current_paragraph_text`, `current_paragraph_num` and `last_block_y1`. -/
structure SegState where
  current_paragraph_text : String
  current_paragraph_num : Nat
  last_block_y1 : ℚ

/-- Emission of the accumulated paragraph: `clean_text = re.sub(...).strip()`;
yield only if `clean_text` is non-empty (ingestion.py lines 113–119). -/
def emitCurrent (page : Nat) (st : SegState) : List ParagraphChunk :=
  if cleanText st.current_paragraph_text = "" then []
  else [⟨page, st.current_paragraph_num, cleanText st.current_paragraph_text⟩]

/-- The end-of-page flush (ingestion.py lines 129–136): emit the remaining
accumulator if it is non-empty. -/
def flushPage (page : Nat) (st : SegState) : List ParagraphChunk :=
  if st.current_paragraph_text = "" then [] else emitCurrent page st

/-- The `for i, block in enumerate(blocks)` loop of `parse_pdf_chunks`
(ingestion.py lines 97–136), followed by the end-of-page flush.  `i` is the
index over all blocks (empty ones included), exactly as `enumerate` counts. -/
def segLoop (page : Nat) (thresh : ℚ) :
    List Block → Nat → SegState → List ParagraphChunk
  | [], _, st => flushPage page st
  | b :: rest, i, st =>
    if pyStrip b.text = "" then
      segLoop page thresh rest (i + 1) st
    else
      if (i = 0 ∨ b.y0 - st.last_block_y1 > thresh) ∧
          st.current_paragraph_text ≠ "" then
        emitCurrent page st ++
          segLoop page thresh rest (i + 1)
            ⟨pyStrip b.text, st.current_paragraph_num + 1, b.y1⟩
      else
        segLoop page thresh rest (i + 1)
          ⟨if st.current_paragraph_text = "" then pyStrip b.text
            else st.current_paragraph_text ++ " " ++ pyStrip b.text,
           st.current_paragraph_num, b.y1⟩

/-- `blocks.sort(key=lambda b: (b[1], b[0]))` — lexicographic comparison on
`(y0, x0)`. -/
def blockLe (a b : Block) : Bool :=
  decide (a.y0 < b.y0 ∨ (a.y0 = b.y0 ∧ a.x0 ≤ b.x0))

/-- The sorted block list of one page (ingestion.py line 91). -/
def sortBlocks (blocks : List Block) : List Block :=
  blocks.mergeSort blockLe

/-- All chunks yielded for one page: sort the blocks, then run the block
loop with `current_paragraph_text = ""`, `current_paragraph_num = 1`,
`last_block_y1 = 0` (ingestion.py lines 91–136). -/
def segmentPage (page : Nat) (thresh : ℚ) (blocks : List Block) :
    List ParagraphChunk :=
  segLoop page thresh (sortBlocks blocks) 0 ⟨"", 1, 0⟩

/-- The `for page_num_plus_one in range(1, len(doc) + 1)` loop, with `k`
the page number of the first remaining page. -/
def parsePages (thresh : ℚ) (k : Nat) : List (List Block) → List ParagraphChunk
  | [] => []
  | bs :: rest => segmentPage k thresh bs ++ parsePages thresh (k + 1) rest

/-- `parse_pdf_chunks` (ingestion.py lines 81–137): the document is the list
of its pages' block lists; pages are numbered from 1. -/
def parse_pdf_chunks (thresh : ℚ) (pages : List (List Block)) :
    List ParagraphChunk :=
  parsePages thresh 1 pages

/-! ### The ingestion driver (`main`, backend/ingestion.py lines 144–243) -/

/-- One `csv.DictReader` row, `file_info.get('filename')` and
`file_info.get('source_id')`: a missing column reads as `none`. -/
structure ManifestRow where
  filename : Option String
  source_id : Option String

/-- Python truthiness test `not x` for an optional string: true on a missing
value and on the empty string. -/
def pyFalsy : Option String → Bool
  | none => true
  | some s => s = ""

/-- One Qdrant `PointStruct` as built in the ingestion loop (ingestion.py
lines 212–226); the randomly generated uuid id is immaterial to every claim
and omitted. -/
structure IngestPoint where
  vector : List ℚ
  filename : String
  source_id : String
  page_number : Nat
  paragraph_number : Nat
  text_chunk : String

/-- The external collaborators of one ingestion run.  Fallible calls return
`Except String`, an `.error` standing for a raised Python exception. -/
structure IngestEnv where
  /-- `PDF_DIRECTORY`. -/
  pdfDirectory : String
  /-- `PARAGRAPH_THRESHOLD`. -/
  paragraphThreshold : ℚ
  /-- `os.path.exists`. -/
  pathExists : String → Bool
  /-- `fitz.open` plus per-page `get_text("blocks")`: the pages of the
  document at a path, or a raised error. -/
  openDoc : String → Except String (List (List Block))
  /-- `ollama_client.embeddings(...)["embedding"]`. -/
  embed : String → Except String (List ℚ)
  /-- `qdrant_client.upsert(..., wait=True)`. -/
  upsert : List IngestPoint → Except String Unit

/-- `os.path.join(PDF_DIRECTORY, filename)` for the non-degenerate case. -/
def joinPath (dir fn : String) : String := dir ++ "/" ++ fn

/-- The outcome recorded for one manifest row; every constructor corresponds
to one exit of the loop body (skip on missing data, skip on missing file,
caught exception, upload, or the no-chunks warning). -/
inductive RowOutcome where
  | skippedMissing
  | skippedNotFound (path : String)
  | failed (err : String)
  | noChunks
  | uploaded (count : Nat)
deriving DecidableEq

/-- The body of the `for file_info in tqdm(all_files, ...)` loop
(ingestion.py lines 183–240): validate the row, resolve the path, parse,
embed every chunk, and upsert the batch; any `.error` raised inside the
`try` block is caught and turned into a `failed` outcome (the
`except Exception` arm at lines 238–240). -/
def processRow (env : IngestEnv) (row : ManifestRow) : RowOutcome :=
  if pyFalsy row.filename || pyFalsy row.source_id then .skippedMissing
  else
    let fn := row.filename.getD ""
    let sid := row.source_id.getD ""
    let path := joinPath env.pdfDirectory fn
    if !env.pathExists path then .skippedNotFound path
    else
      match env.openDoc path with
      | .error e => .failed e
      | .ok pages =>
        match (parse_pdf_chunks env.paragraphThreshold pages).mapM
            (fun c => (env.embed c.text).map fun v =>
              (⟨v, fn, sid, c.page_number, c.paragraph_number, c.text⟩ :
                IngestPoint)) with
        | .error e => .failed e
        | .ok points =>
          if points.isEmpty then .noChunks
          else
            match env.upsert points with
            | .error e => .failed e
            | .ok _ => .uploaded points.length

/-- The whole manifest loop of `main`: one outcome per row, in order.  The
loop carries no cross-row state (the point batch is rebuilt per row), so it
is the row-wise map of `processRow`. -/
def ingestLoop (env : IngestEnv) (rows : List ManifestRow) : List RowOutcome :=
  rows.map (processRow env)

/-! ### The query orchestrator (`analyze_document`, backend/main.py) -/

/-- `MAX_FILE_MB` (main.py line 52). -/
def MAX_FILE_MB : Nat := 5

/-- `MAX_FILE_BYTES` (main.py line 53). -/
def MAX_FILE_BYTES : Nat := MAX_FILE_MB * 1024 * 1024

/-- `ALLOWED_MIME_TYPES` (main.py lines 54–61). -/
def ALLOWED_MIME_TYPES : List String :=
  ["application/pdf",
   "application/msword",
   "application/vnd.openxmlformats-officedocument.wordprocessingml.document",
   "image/png",
   "image/jpeg",
   "image/jpg"]

/-- `TOP_K_RESULTS` (main.py line 48). -/
def TOP_K_RESULTS : Nat := 5

/-- `SCORE_THRESHOLD` (main.py line 49). -/
def SCORE_THRESHOLD : ℚ := 7 / 10

/-- The parts of a FastAPI `UploadFile` the endpoint reads: the declared
content type, the filename, and the byte string read by `file.read()`,
modelled by its length. -/
structure UploadFile where
  content_type : String
  filename : String
  size : Nat

/-- A raised `HTTPException`. -/
structure HTTPError where
  status_code : Nat
  detail : String
deriving DecidableEq

/-- The endpoint's response model `RAGResponse` (main.py lines 128–130). -/
structure RAGResponse where
  answer : String
  retrieved_sources_count : Nat
deriving DecidableEq

/-- `', '.join(sorted(ALLOWED_MIME_TYPES))` — Python's `sorted` on the six
media-type strings, precomputed lexicographically. -/
def allowedTypesJoined : String :=
  "application/msword, application/pdf, " ++
  "application/vnd.openxmlformats-officedocument.wordprocessingml.document, " ++
  "image/jpeg, image/jpg, image/png"

/-- `validate_file` (main.py lines 137–142): a 415 for a content type
outside the allow-list. -/
def validate_file (file : UploadFile) : Except HTTPError Unit :=
  if ALLOWED_MIME_TYPES.contains file.content_type then .ok ()
  else
    .error ⟨415, "Unsupported file type '" ++ file.content_type ++
      "'. Allowed: " ++ allowedTypesJoined⟩

/-- One document returned by `parser.aload_data`, exposing `get_text()`. -/
structure ParsedDoc where
  text : String

/-- A Qdrant payload as read back by the endpoint (`payload.get(key,
default)`): each field may be absent.  The ingestion writes the numeric
fields as integers; the endpoint interpolates them into f-strings. -/
structure QdrantPayload where
  filename : Option String
  page_number : Option Nat
  paragraph_number : Option Nat
  text_chunk : Option String

/-- One `qdrant_client.search` hit; `result.payload` may be `None`
(`payload = result.payload or {}`, main.py line 208). -/
structure SearchResult where
  payload : Option QdrantPayload

/-- `result.payload or {}`. -/
def payloadOrEmpty (r : SearchResult) : QdrantPayload :=
  r.payload.getD ⟨none, none, none, none⟩

/-- `payload.get(key, 'N/A')` rendered into the f-string, for the numeric
payload fields. -/
def natFieldOrNA : Option Nat → String
  | none => "N/A"
  | some n => toString n

/-- The citation `cite` f-string (main.py line 209). -/
def citeOf (p : QdrantPayload) : String :=
  "[Source: " ++ p.filename.getD "N/A" ++ ", Page: " ++
    natFieldOrNA p.page_number ++ ", Para: " ++
    natFieldOrNA p.paragraph_number ++ "]"

/-- The two `legal_chunks_text +=` statements for hit number `i` (0-based,
from `enumerate`; main.py lines 210–211): the "Legal Chunk" citation header,
then the hit's stored text. -/
def chunkEntry (i : Nat) (r : SearchResult) : String :=
  let payload := payloadOrEmpty r
  "\n--- Legal Chunk " ++ toString (i + 1) ++ " " ++ citeOf payload ++
    " ---\n" ++ payload.text_chunk.getD "No text available." ++ "\n"

/-- The zero-hit notice (main.py line 213). -/
def NO_CHUNKS_NOTICE : String :=
  "No relevant legal chunks were found in the knowledge base for this context."

/-- `legal_chunks_text` as built by main.py lines 205–213: the loop over
`enumerate(search_results)` when there are hits, the explicit notice
otherwise. -/
def legal_chunks_text (search_results : List SearchResult) : String :=
  if search_results.isEmpty then NO_CHUNKS_NOTICE
  else search_results.enum.foldl (fun acc p => acc ++ chunkEntry p.1 p.2) ""

/-- `SYSTEM_PROMPT` (main.py lines 63–76). -/
def SYSTEM_PROMPT : String :=
  "You are a highly specialized legal analyst. Your user is a local citizen.\n" ++
  "You will be given THREE pieces of information:\n" ++
  "1. A USER'S QUESTION.\n" ++
  "2. The full text of a USER'S DOCUMENT (if provided).\n" ++
  "3. Several relevant LEGAL CHUNKS from a permanent knowledge base of official laws and regulations.\n" ++
  "\n" ++
  "Your task is to synthesize all this information to answer the user's question.\n" ++
  "- First, analyze the USER'S DOCUMENT (if it exists).\n" ++
  "- Then, use the LEGAL CHUNKS to provide the official legal context and definitions.\n" ++
  "- Finally, answer the USER'S QUESTION by connecting the user's document to the law.\n" ++
  "- You MUST cite the legal chunks you use, like [Source: filename, Page: X, Para: Y].\n" ++
  "- If the legal chunks are not relevant or don't add value, state that you can only analyze the user's document (or only the question if no document was provided).\n" ++
  "- Your tone should be formal, professional, and helpful.\n"

/-- The composed query (main.py lines 185–188): a labeled document section
plus a labeled question section when document text is present (Python
truthiness: the non-empty string), the question-only label otherwise. -/
def combined_query_text (user_doc_text user_query : String) : String :=
  if user_doc_text ≠ "" then
    "USER'S DOCUMENT:\n" ++ user_doc_text ++ "\n\nUSER'S QUESTION:\n" ++
      user_query
  else
    "USER'S QUESTION ONLY:\n" ++ user_query

/-- `final_prompt` (main.py lines 215–227). -/
def final_prompt (user_query user_doc_text legalChunks : String) : String :=
  SYSTEM_PROMPT ++
  "\n\n--- USER'S QUESTION ---\n" ++ user_query ++
  "\n\n--- USER'S DOCUMENT TEXT ---\n" ++
  (if user_doc_text = "" then "[No user document provided]" else user_doc_text) ++
  "\n\n--- RELEVANT LEGAL CHUNKS FROM KNOWLEDGE BASE ---\n" ++ legalChunks ++
  "\n\n--- FINAL ANALYSIS ---\n"

/-- One observable external call of the query path. -/
inductive CallEvent where
  /-- `parser.aload_data` on the uploaded file. -/
  | parseCall
  /-- `Settings.embed_model.aget_query_embedding(text)`. -/
  | embedCall (text : String)
  /-- `qdrant_client.search(..., limit, score_threshold, ...)`. -/
  | searchCall (limit : Nat) (score_threshold : ℚ)
  /-- `Settings.llm.acomplete(prompt)`. -/
  | completeCall (prompt : String)
deriving DecidableEq

/-- The external collaborators of one request: the parse outcome for the
uploaded file (if any), the store's hits for the request's query, and the
completion service. -/
structure QueryEnv where
  parse : Except String (List ParsedDoc)
  search_results : List SearchResult
  complete : String → String

/-- Main.py lines 185–237, the part of the endpoint after `user_doc_text`
is fixed: compose the query, embed it, search, render the citation block,
assemble the prompt, complete.  Returns the response paired with the trace
of external calls made. -/
def ragPipeline (env : QueryEnv) (user_query user_doc_text : String) :
    Except HTTPError RAGResponse × List CallEvent :=
  let combined := combined_query_text user_doc_text user_query
  let chunksBlock := legal_chunks_text env.search_results
  let prompt := final_prompt user_query user_doc_text chunksBlock
  (.ok ⟨env.complete prompt, env.search_results.length⟩,
   [.embedCall combined, .searchCall TOP_K_RESULTS SCORE_THRESHOLD,
    .completeCall prompt])

/-- `analyze_document` (main.py lines 144–243): validation and parsing of
the optional upload, then the retrieval pipeline.  Each raised
`HTTPException` is the `.error` of the returned pair; the second component
is the trace of external calls made before returning. -/
def analyze_document (env : QueryEnv) (user_query : String)
    (file : Option UploadFile) :
    Except HTTPError RAGResponse × List CallEvent :=
  match file with
  | none => ragPipeline env user_query ""
  | some f =>
    match validate_file f with
    | .error e => (.error e, [])
    | .ok _ =>
      if f.size > MAX_FILE_BYTES then
        (.error ⟨413, "File exceeds " ++ toString MAX_FILE_MB ++ "MB limit."⟩,
         [])
      else
        match env.parse with
        | .error msg =>
          (.error ⟨400, "Failed to parse document: " ++ msg⟩, [.parseCall])
        | .ok [] =>
          (.error ⟨400, "Empty parse result for document."⟩, [.parseCall])
        | .ok (d :: _) =>
          let rest := ragPipeline env user_query d.text
          (rest.1, .parseCall :: rest.2)

/-! ### Normalization lemmas

A string "has ink" when it holds a non-whitespace character; stripping and
whitespace-collapsing never erase ink, which is why the segmenter never
emits an empty chunk. -/

/-- `s` holds at least one non-whitespace character. -/
def hasInk (s : String) : Prop := ∃ c ∈ s.data, isWs c = false

theorem mem_collapseWs {c : Char} (hc : isWs c = false) :
    ∀ (l : List Char) (flag : Bool), c ∈ l → c ∈ collapseWs l flag := by
  intro l
  induction l with
  | nil => intro flag h; cases h
  | cons d rest ih =>
    intro flag h
    rcases List.mem_cons.1 h with rfl | hm
    · simp [collapseWs, hc]
    · by_cases hd : isWs d = true
      · cases flag <;> simp [collapseWs, hd] <;>
          first
          | exact Or.inr (ih true hm)
          | exact ih true hm
      · simp only [Bool.not_eq_true] at hd
        simp [collapseWs, hd]
        exact Or.inr (ih false hm)

theorem dropWhile_head_false {α : Type} {p : α → Bool} :
    ∀ (l : List α) {d : α} {t : List α}, l.dropWhile p = d :: t → p d = false := by
  intro l
  induction l with
  | nil => intro d t h; cases h
  | cons a as ih =>
    intro d t h
    by_cases hp : p a = true
    · rw [List.dropWhile_cons_of_pos hp] at h
      exact ih h
    · simp only [Bool.not_eq_true] at hp
      rw [List.dropWhile_cons_of_neg (by simp [hp])] at h
      cases h
      exact hp

theorem mem_dropWhile_append_singleton {α : Type} {p : α → Bool} {c : α}
    (hc : p c = false) : ∀ (l : List α), c ∈ List.dropWhile p (l ++ [c]) := by
  intro l
  induction l with
  | nil => simp [List.dropWhile, hc]
  | cons a as ih =>
    by_cases hp : p a = true
    · rw [List.cons_append, List.dropWhile_cons_of_pos hp]
      exact ih
    · rw [List.cons_append,
        List.dropWhile_cons_of_neg (by simp_all)]
      exact List.mem_cons_of_mem a (List.mem_append_right as (List.mem_singleton.2 rfl))

theorem stripList_eq_nil {l : List Char} (h : ∀ c ∈ l, isWs c = true) :
    stripList l = [] := by
  unfold stripList
  rw [List.dropWhile_eq_nil_iff.2 h]
  rfl

theorem mem_stripList_of_nonWs {l : List Char} (h : ∃ c ∈ l, isWs c = false) :
    ∃ c ∈ stripList l, isWs c = false := by
  obtain ⟨c0, hc0, hw0⟩ := h
  have hne : l.dropWhile isWs ≠ [] := by
    intro h0
    have := List.dropWhile_eq_nil_iff.1 h0 c0 hc0
    rw [hw0] at this
    cases this
  obtain ⟨d, t, hdt⟩ := List.exists_cons_of_ne_nil hne
  have hd : isWs d = false := dropWhile_head_false l hdt
  refine ⟨d, ?_, hd⟩
  unfold stripList
  rw [hdt, List.mem_reverse, List.reverse_cons]
  exact mem_dropWhile_append_singleton hd t.reverse

theorem eq_empty_of_data_nil {s : String} (h : s.data = []) : s = "" :=
  String.ext (by simpa using h)

theorem hasInk_pyStrip {t : String} (h : pyStrip t ≠ "") : hasInk (pyStrip t) := by
  have hne : stripList t.data ≠ [] := fun h0 => h (eq_empty_of_data_nil h0)
  have : ¬ ∀ c ∈ t.data, isWs c = true := fun hall => hne (stripList_eq_nil hall)
  push_neg at this
  obtain ⟨c, hc, hw⟩ := this
  exact mem_stripList_of_nonWs ⟨c, hc, Bool.not_eq_true _ ▸ hw⟩

theorem cleanText_ne_empty {s : String} (h : hasInk s) : cleanText s ≠ "" := by
  obtain ⟨c, hc, hw⟩ := h
  have h1 : c ∈ collapseWs s.data false := mem_collapseWs hw s.data false hc
  obtain ⟨d, hd, _⟩ := mem_stripList_of_nonWs ⟨c, h1, hw⟩
  intro he
  have hnil : stripList (collapseWs s.data false) = [] := congrArg String.data he
  rw [hnil] at hd
  cases hd

theorem hasInk_append_l {a : String} (b : String) (h : hasInk a) :
    hasInk (a ++ b) := by
  obtain ⟨c, hc, hw⟩ := h
  exact ⟨c, by rw [String.data_append]; exact List.mem_append_left _ hc, hw⟩

theorem append_ne_empty_r (a : String) {b : String} (hb : b ≠ "") :
    a ++ b ≠ "" := by
  intro h
  have hd := congrArg String.data h
  rw [String.data_append] at hd
  exact hb (eq_empty_of_data_nil (List.append_eq_nil.1 hd).2)

/-- Loop-state invariant: the paragraph accumulator is empty or has ink. -/
def GoodText (s : String) : Prop := s = "" ∨ hasInk s

/-! ### Segmenter loop lemmas -/

theorem emitCurrent_of_ink {page : Nat} {st : SegState}
    (h : hasInk st.current_paragraph_text) :
    emitCurrent page st =
      [⟨page, st.current_paragraph_num, cleanText st.current_paragraph_text⟩] := by
  unfold emitCurrent
  rw [if_neg (cleanText_ne_empty h)]

theorem segLoop_pages (page : Nat) (t : ℚ) :
    ∀ (l : List Block) (i : Nat) (st : SegState),
      ∀ c ∈ segLoop page t l i st, c.page_number = page := by
  intro l
  induction l with
  | nil =>
    intro i st c hc
    simp only [segLoop, flushPage, emitCurrent] at hc
    split at hc
    · cases hc
    · split at hc
      · cases hc
      · rw [List.mem_singleton.1 hc]
  | cons b rest ih =>
    intro i st c hc
    simp only [segLoop] at hc
    split at hc
    · exact ih _ st c hc
    · split at hc
      · rcases List.mem_append.1 hc with hm | hm
        · simp only [emitCurrent] at hm
          split at hm
          · cases hm
          · rw [List.mem_singleton.1 hm]
        · exact ih _ _ c hm
      · exact ih _ _ c hc

theorem segLoop_nums (page : Nat) (t : ℚ) :
    ∀ (l : List Block) (i : Nat) (st : SegState),
      GoodText st.current_paragraph_text →
      (segLoop page t l i st).map ParagraphChunk.paragraph_number =
        List.range' st.current_paragraph_num (segLoop page t l i st).length := by
  intro l
  induction l with
  | nil =>
    intro i st hg
    simp only [segLoop, flushPage]
    by_cases h1 : st.current_paragraph_text = ""
    · rw [if_pos h1]; rfl
    · rw [if_neg h1, emitCurrent_of_ink (hg.resolve_left h1)]; rfl
  | cons b rest ih =>
    intro i st hg
    simp only [segLoop]
    by_cases hbt : pyStrip b.text = ""
    · rw [if_pos hbt]; exact ih _ st hg
    · rw [if_neg hbt]
      have hink : hasInk (pyStrip b.text) := hasInk_pyStrip hbt
      by_cases hc : (i = 0 ∨ b.y0 - st.last_block_y1 > t) ∧
          st.current_paragraph_text ≠ ""
      · rw [if_pos hc, emitCurrent_of_ink (hg.resolve_left hc.2)]
        have hrec := ih (i + 1)
          ⟨pyStrip b.text, st.current_paragraph_num + 1, b.y1⟩ (Or.inr hink)
        simp only [List.singleton_append, List.map_cons, List.length_cons, hrec]
        rw [List.range'_succ]
      · rw [if_neg hc]
        apply ih
        by_cases h0 : st.current_paragraph_text = ""
        · rw [if_pos h0]; exact Or.inr hink
        · rw [if_neg h0]
          exact Or.inr (hasInk_append_l _ (hasInk_append_l _ (hg.resolve_left h0)))

/-- The number of blocks on a page whose stripped text is non-empty — the
blocks the segmenter does not skip. -/
def countNonEmptyBlocks (blocks : List Block) : Nat :=
  (blocks.filter fun b => pyStrip b.text ≠ "").length

theorem segLoop_length_le (page : Nat) (t : ℚ) :
    ∀ (l : List Block) (i : Nat) (st : SegState),
      (segLoop page t l i st).length ≤
        countNonEmptyBlocks l +
          (if st.current_paragraph_text = "" then 0 else 1) := by
  intro l
  induction l with
  | nil =>
    intro i st
    simp only [segLoop, flushPage, countNonEmptyBlocks, List.filter_nil,
      List.length_nil]
    by_cases h1 : st.current_paragraph_text = ""
    · rw [if_pos h1, if_pos h1]; simp
    · rw [if_neg h1, if_neg h1]
      unfold emitCurrent
      split <;> simp
  | cons b rest ih =>
    intro i st
    simp only [segLoop]
    by_cases hbt : pyStrip b.text = ""
    · rw [if_pos hbt]
      have hcount : countNonEmptyBlocks (b :: rest) = countNonEmptyBlocks rest := by
        simp [countNonEmptyBlocks, List.filter_cons, hbt]
      rw [hcount]; exact ih _ st
    · rw [if_neg hbt]
      have hcount : countNonEmptyBlocks (b :: rest) =
          countNonEmptyBlocks rest + 1 := by
        simp [countNonEmptyBlocks, List.filter_cons, hbt]
      by_cases hc : (i = 0 ∨ b.y0 - st.last_block_y1 > t) ∧
          st.current_paragraph_text ≠ ""
      · rw [if_pos hc, List.length_append]
        have h1 : (emitCurrent page st).length ≤ 1 := by
          unfold emitCurrent; split <;> simp
        have h2 := ih (i + 1)
          ⟨pyStrip b.text, st.current_paragraph_num + 1, b.y1⟩
        rw [if_neg hbt] at h2
        rw [hcount, if_neg hc.2]
        omega
      · rw [if_neg hc]
        by_cases h0 : st.current_paragraph_text = ""
        · simp only [if_pos h0]
          have h2 := ih (i + 1)
            ⟨pyStrip b.text, st.current_paragraph_num, b.y1⟩
          rw [if_neg hbt] at h2
          rw [hcount]
          omega
        · simp only [if_neg h0]
          have h2 := ih (i + 1)
            ⟨st.current_paragraph_text ++ " " ++ pyStrip b.text,
             st.current_paragraph_num, b.y1⟩
          rw [if_neg (append_ne_empty_r _ hbt)] at h2
          rw [hcount]
          omega

theorem segLoop_length_pos (page : Nat) (t : ℚ) :
    ∀ (l : List Block) (i : Nat) (st : SegState),
      GoodText st.current_paragraph_text →
      (st.current_paragraph_text ≠ "" ∨ 0 < countNonEmptyBlocks l) →
      0 < (segLoop page t l i st).length := by
  intro l
  induction l with
  | nil =>
    intro i st hg hd
    rcases hd with hd | hd
    · simp only [segLoop, flushPage]
      rw [if_neg hd, emitCurrent_of_ink (hg.resolve_left hd)]
      simp
    · simp [countNonEmptyBlocks] at hd
  | cons b rest ih =>
    intro i st hg hd
    simp only [segLoop]
    by_cases hbt : pyStrip b.text = ""
    · rw [if_pos hbt]
      apply ih _ st hg
      rcases hd with hd | hd
      · exact Or.inl hd
      · right
        simpa [countNonEmptyBlocks, List.filter_cons, hbt] using hd
    · rw [if_neg hbt]
      have hink : hasInk (pyStrip b.text) := hasInk_pyStrip hbt
      by_cases hc : (i = 0 ∨ b.y0 - st.last_block_y1 > t) ∧
          st.current_paragraph_text ≠ ""
      · rw [if_pos hc, List.length_append,
          emitCurrent_of_ink (hg.resolve_left hc.2)]
        simp
      · rw [if_neg hc]
        apply ih
        · by_cases h0 : st.current_paragraph_text = ""
          · rw [if_pos h0]; exact Or.inr hink
          · rw [if_neg h0]
            exact Or.inr (hasInk_append_l _ (hasInk_append_l _ (hg.resolve_left h0)))
        · left
          split
          · exact hbt
          · exact append_ne_empty_r _ hbt

theorem countNonEmpty_sortBlocks (blocks : List Block) :
    countNonEmptyBlocks (sortBlocks blocks) = countNonEmptyBlocks blocks := by
  unfold countNonEmptyBlocks sortBlocks
  exact (List.Perm.filter _ (List.mergeSort_perm blocks blockLe)).length_eq

theorem segmentPage_pages (page : Nat) (t : ℚ) (blocks : List Block) :
    ∀ c ∈ segmentPage page t blocks, c.page_number = page :=
  fun c hc => segLoop_pages page t _ 0 _ c hc

theorem parsePages_page_ge (t : ℚ) :
    ∀ (pages : List (List Block)) (k : Nat),
      ∀ c ∈ parsePages t k pages, k ≤ c.page_number := by
  intro pages
  induction pages with
  | nil => intro k c hc; cases hc
  | cons bs rest ih =>
    intro k c hc
    simp only [parsePages] at hc
    rcases List.mem_append.1 hc with h | h
    · rw [segmentPage_pages k t bs c h]
    · exact Nat.le_of_succ_le (ih (k + 1) c h)

theorem filter_parsePages (t : ℚ) :
    ∀ (pages : List (List Block)) (k i : Nat) (h : i < pages.length),
      (parsePages t k pages).filter (fun c => c.page_number == k + i) =
        segmentPage (k + i) t (pages.get ⟨i, h⟩) := by
  intro pages
  induction pages with
  | nil => intro k i h; exact absurd h (Nat.not_lt_zero i)
  | cons bs rest ih =>
    intro k i h
    simp only [parsePages, List.filter_append]
    cases i with
    | zero =>
      simp only [Nat.add_zero]
      have h1 : (segmentPage k t bs).filter (fun c => c.page_number == k) =
          segmentPage k t bs := by
        apply List.filter_eq_self.2
        intro c hc
        simp [segmentPage_pages k t bs c hc]
      have h2 : (parsePages t (k + 1) rest).filter
          (fun c => c.page_number == k) = [] := by
        apply List.filter_eq_nil_iff.2
        intro c hc
        have := parsePages_page_ge t rest (k + 1) c hc
        simp only [beq_iff_eq]
        omega
      rw [h1, h2, List.append_nil]
      rfl
    | succ j =>
      have h1 : (segmentPage k t bs).filter
          (fun c => c.page_number == k + (j + 1)) = [] := by
        apply List.filter_eq_nil_iff.2
        intro c hc
        have := segmentPage_pages k t bs c hc
        simp only [beq_iff_eq]
        omega
      rw [h1, List.nil_append]
      have he : k + (j + 1) = (k + 1) + j := by omega
      simp only [he]
      rw [ih (k + 1) j (Nat.lt_of_succ_lt_succ h)]
      rfl

/-! ### Claim theorems: the segmenter -/

/-- C3: for two consecutively processed non-empty blocks, a vertical gap of
exactly the threshold (`b.y0 - last_block_y1 = thresh`) makes the second
block a continuation of the current paragraph — the accumulator grows by
`" " ++ text` and the paragraph ordinal is unchanged; the same holds for
every gap `≤ thresh`; a new paragraph (emit the accumulated chunk,
increment the ordinal) happens only for a gap strictly greater than the
threshold.  `i ≠ 0` since a block with an already-accumulated predecessor
is never the first of the enumeration, and `st.current_paragraph_text ≠ ""`
records that predecessor. -/
theorem paragraph_gap_threshold_strict (page : Nat) (thresh : ℚ) (i : Nat)
    (st : SegState) (b : Block) (rest : List Block)
    (hbt : pyStrip b.text ≠ "") (hacc : st.current_paragraph_text ≠ "")
    (hi : i ≠ 0) :
    (b.y0 - st.last_block_y1 = thresh →
      segLoop page thresh (b :: rest) i st =
        segLoop page thresh rest (i + 1)
          ⟨st.current_paragraph_text ++ " " ++ pyStrip b.text,
           st.current_paragraph_num, b.y1⟩) ∧
    (b.y0 - st.last_block_y1 ≤ thresh →
      segLoop page thresh (b :: rest) i st =
        segLoop page thresh rest (i + 1)
          ⟨st.current_paragraph_text ++ " " ++ pyStrip b.text,
           st.current_paragraph_num, b.y1⟩) ∧
    (b.y0 - st.last_block_y1 > thresh →
      segLoop page thresh (b :: rest) i st =
        emitCurrent page st ++
          segLoop page thresh rest (i + 1)
            ⟨pyStrip b.text, st.current_paragraph_num + 1, b.y1⟩) := by
  have hcont : b.y0 - st.last_block_y1 ≤ thresh →
      segLoop page thresh (b :: rest) i st =
        segLoop page thresh rest (i + 1)
          ⟨st.current_paragraph_text ++ " " ++ pyStrip b.text,
           st.current_paragraph_num, b.y1⟩ := by
    intro hle
    simp only [segLoop]
    rw [if_neg hbt,
      if_neg (show ¬((i = 0 ∨ b.y0 - st.last_block_y1 > thresh) ∧
          st.current_paragraph_text ≠ "") from
        fun hand => hand.1.elim hi fun hgt => absurd hle (not_le.2 hgt)),
      if_neg hacc]
  refine ⟨fun he => hcont (le_of_eq he), hcont, fun hgt => ?_⟩
  simp only [segLoop]
  rw [if_neg hbt, if_pos ⟨Or.inr hgt, hacc⟩]

/-- Witness for C3 at a concrete input: previous block ended at `y1 = 10`,
next block starts at `y0 = 22`, threshold 12, gap exactly 12 — the block is
appended to the running paragraph. -/
theorem paragraph_gap_threshold_strict_witness :
    segLoop 1 12 [⟨0, 22, 10, 30, "again"⟩] 1 ⟨"Hello", 1, 10⟩ =
      segLoop 1 12 [] 2 ⟨"Hello" ++ " " ++ pyStrip "again", 1, 30⟩ :=
  (paragraph_gap_threshold_strict 1 12 1 ⟨"Hello", 1, 10⟩
      ⟨0, 22, 10, 30, "again"⟩ [] (by decide) (by decide) (by decide)).1
    (by norm_num)

/-- C7: a page with zero non-empty blocks yields zero chunks, and a page
with at least one non-empty block yields at least 1 and at most as many
chunks as it has non-empty blocks. -/
theorem segmenter_chunk_count_bounds (page : Nat) (thresh : ℚ)
    (blocks : List Block) :
    (countNonEmptyBlocks blocks = 0 → segmentPage page thresh blocks = []) ∧
    (0 < countNonEmptyBlocks blocks →
      1 ≤ (segmentPage page thresh blocks).length ∧
      (segmentPage page thresh blocks).length ≤ countNonEmptyBlocks blocks) := by
  unfold segmentPage
  constructor
  · intro h0
    have hle := segLoop_length_le page thresh (sortBlocks blocks) 0 ⟨"", 1, 0⟩
    rw [countNonEmpty_sortBlocks, h0, if_pos rfl, Nat.add_zero] at hle
    exact List.eq_nil_of_length_eq_zero (Nat.le_zero.1 hle)
  · intro hpos
    constructor
    · exact segLoop_length_pos page thresh (sortBlocks blocks) 0 ⟨"", 1, 0⟩
        (Or.inl rfl) (Or.inr (by rw [countNonEmpty_sortBlocks]; exact hpos))
    · have hle := segLoop_length_le page thresh (sortBlocks blocks) 0 ⟨"", 1, 0⟩
      rw [countNonEmpty_sortBlocks] at hle
      simpa using hle

/-- Witness for C7: the empty page yields zero chunks, and a concrete page
with two non-empty blocks yields between 1 and 2 chunks. -/
theorem segmenter_chunk_count_bounds_witness :
    segmentPage 1 12 [] = [] ∧
    (1 ≤ (segmentPage 1 12 [⟨0, 0, 10, 10, "a"⟩, ⟨0, 30, 10, 40, "b"⟩]).length ∧
     (segmentPage 1 12 [⟨0, 0, 10, 10, "a"⟩, ⟨0, 30, 10, 40, "b"⟩]).length ≤
       countNonEmptyBlocks [⟨0, 0, 10, 10, "a"⟩, ⟨0, 30, 10, 40, "b"⟩]) :=
  ⟨(segmenter_chunk_count_bounds 1 12 []).1 (by decide),
   (segmenter_chunk_count_bounds 1 12
      [⟨0, 0, 10, 10, "a"⟩, ⟨0, 30, 10, 40, "b"⟩]).2 (by decide)⟩

/-- C8: on every page of a parsed document, the paragraph numbers of that
page's chunks are exactly `1, 2, …, k` (`List.range' 1 k`) — positive,
strictly increasing, starting at 1 — and this holds for every page index,
i.e. the ordinal is reset to 1 at the start of each page, whatever the
input block order. -/
theorem paragraph_numbers_increasing (thresh : ℚ) (pages : List (List Block))
    (i : Nat) (h : i < pages.length) :
    ((parse_pdf_chunks thresh pages).filter
        (fun c => c.page_number == i + 1)).map ParagraphChunk.paragraph_number =
      List.range' 1 ((parse_pdf_chunks thresh pages).filter
        (fun c => c.page_number == i + 1)).length := by
  have hf : (parse_pdf_chunks thresh pages).filter
      (fun c => c.page_number == i + 1) =
      segmentPage (1 + i) thresh (pages.get ⟨i, h⟩) := by
    rw [show (fun c : ParagraphChunk => c.page_number == i + 1) =
        (fun c => c.page_number == 1 + i) from
      funext fun c => by rw [Nat.add_comm]]
    exact filter_parsePages thresh pages 1 i h
  rw [hf]
  exact segLoop_nums (1 + i) thresh (sortBlocks (pages.get ⟨i, h⟩)) 0
    ⟨"", 1, 0⟩ (Or.inl rfl)

/-- Witness for C8 at a concrete two-page document. -/
theorem paragraph_numbers_increasing_witness :
    ((parse_pdf_chunks 12 [[⟨0, 0, 10, 10, "a"⟩, ⟨0, 30, 10, 40, "b"⟩],
        [⟨0, 0, 10, 10, "c"⟩]]).filter
      (fun c => c.page_number == 0 + 1)).map ParagraphChunk.paragraph_number =
      List.range' 1 (((parse_pdf_chunks 12 [[⟨0, 0, 10, 10, "a"⟩,
          ⟨0, 30, 10, 40, "b"⟩], [⟨0, 0, 10, 10, "c"⟩]]).filter
        (fun c => c.page_number == 0 + 1)).length) :=
  paragraph_numbers_increasing 12
    [[⟨0, 0, 10, 10, "a"⟩, ⟨0, 30, 10, 40, "b"⟩], [⟨0, 0, 10, 10, "c"⟩]]
    0 (by decide)

/-! ### Claim theorems: the ingestion driver -/

/-- A sample ingestion environment whose document parse raises. -/
def envFailParse : IngestEnv :=
  ⟨"docs", 12, fun _ => true, fun _ => .error "boom",
   fun _ => .ok [1], fun _ => .ok ()⟩

/-- A sample ingestion environment in which no resolved path exists. -/
def envNoFile : IngestEnv :=
  ⟨"docs", 12, fun _ => false, fun _ => .error "E",
   fun _ => .ok [1], fun _ => .ok ()⟩

/-- C2: if processing one manifest row fails (any caught exception during
resolution, parsing, embedding or upsert, i.e. `processRow` yields
`.failed e`), the batch still records one outcome per row: the rows before
and after the failing one are processed exactly as they otherwise would be,
and the loop never aborts. -/
theorem ingestion_failure_isolated (env : IngestEnv)
    (pre post : List ManifestRow) (row : ManifestRow) (e : String)
    (h : processRow env row = .failed e) :
    ingestLoop env (pre ++ row :: post) =
      ingestLoop env pre ++ .failed e :: ingestLoop env post ∧
    (ingestLoop env (pre ++ row :: post)).length =
      pre.length + 1 + post.length := by
  constructor
  · simp [ingestLoop, h]
  · simp [ingestLoop]
    omega

/-- Witness for C2: a parse failure on the middle row of a three-row
manifest leaves the outer rows' outcomes intact. -/
theorem ingestion_failure_isolated_witness :
    ingestLoop envFailParse
        ([⟨none, some "s1"⟩] ++ (⟨some "f2", some "s2"⟩ : ManifestRow) ::
          [⟨none, none⟩]) =
      ingestLoop envFailParse [⟨none, some "s1"⟩] ++
        .failed "boom" :: ingestLoop envFailParse [⟨none, none⟩] ∧
    (ingestLoop envFailParse
        ([⟨none, some "s1"⟩] ++ (⟨some "f2", some "s2"⟩ : ManifestRow) ::
          [⟨none, none⟩])).length = 1 + 1 + 1 :=
  ingestion_failure_isolated envFailParse [⟨none, some "s1"⟩] [⟨none, none⟩]
    ⟨some "f2", some "s2"⟩ "boom" (by decide)

/-- C9: a manifest row with missing (or empty, which Python's truthiness
also skips) `filename` or `source_id` is recorded as `skippedMissing`, a
row whose resolved path does not exist as `skippedNotFound`, and in both
cases the rows before and after are still processed unchanged. -/
theorem manifest_row_skips (env : IngestEnv) (pre post : List ManifestRow)
    (row : ManifestRow) :
    ((pyFalsy row.filename || pyFalsy row.source_id) = true →
      ingestLoop env (pre ++ row :: post) =
        ingestLoop env pre ++ .skippedMissing :: ingestLoop env post) ∧
    (∀ fn sid, row.filename = some fn → row.source_id = some sid →
      fn ≠ "" → sid ≠ "" →
      env.pathExists (joinPath env.pdfDirectory fn) = false →
      ingestLoop env (pre ++ row :: post) =
        ingestLoop env pre ++
          .skippedNotFound (joinPath env.pdfDirectory fn) ::
            ingestLoop env post) := by
  constructor
  · intro h
    have hp : processRow env row = .skippedMissing := by
      unfold processRow
      rw [if_pos h]
    simp [ingestLoop, hp]
  · intro fn sid hfn hsid hfne hsne hpath
    have hp : processRow env row =
        .skippedNotFound (joinPath env.pdfDirectory fn) := by
      simp [processRow, pyFalsy, hfn, hsid, hfne, hsne, hpath]
    simp [ingestLoop, hp]

/-- Witness for C9: a row with no filename is skipped as missing data; a
well-formed row whose path does not exist is skipped as not found; later
rows still get their outcomes. -/
theorem manifest_row_skips_witness :
    ingestLoop envNoFile ([] ++ (⟨none, some "s"⟩ : ManifestRow) ::
        [⟨some "g", some "s"⟩]) =
      ingestLoop envNoFile [] ++
        .skippedMissing :: ingestLoop envNoFile [⟨some "g", some "s"⟩] ∧
    ingestLoop envNoFile ([] ++ (⟨some "f", some "s"⟩ : ManifestRow) :: []) =
      ingestLoop envNoFile [] ++
        .skippedNotFound (joinPath envNoFile.pdfDirectory "f") ::
          ingestLoop envNoFile [] :=
  ⟨(manifest_row_skips envNoFile [] [⟨some "g", some "s"⟩]
      ⟨none, some "s"⟩).1 (by decide),
   (manifest_row_skips envNoFile [] [] ⟨some "f", some "s"⟩).2 "f" "s"
     rfl rfl (by decide) (by decide) rfl⟩

/-! ### Claim theorems: the query orchestrator -/

/-- The texts handed to the embedding client within a call trace. -/
def embedTexts (trace : List CallEvent) : List String :=
  trace.filterMap fun ev =>
    match ev with
    | .embedCall s => some s
    | _ => none

/-- The prompts handed to the completion service within a call trace. -/
def completeTexts (trace : List CallEvent) : List String :=
  trace.filterMap fun ev =>
    match ev with
    | .completeCall s => some s
    | _ => none

/-- A sample request environment: empty parse result, no hits. -/
def qenvNoDocs : QueryEnv := ⟨.ok [], [], fun _ => "answer"⟩

/-- A sample request environment whose parse yields one document. -/
def qenvDoc (s : String) : QueryEnv := ⟨.ok [⟨s⟩], [], fun _ => "answer"⟩

/-- A sample request environment: parsed document with empty text, one hit. -/
def qenvEmptyDoc : QueryEnv := ⟨.ok [⟨""⟩], [⟨none⟩], fun _ => "answer"⟩

/-- C6: an attachment whose declared media type is outside
`ALLOWED_MIME_TYPES` is rejected with the 415 client error, and one whose
size exceeds `MAX_FILE_BYTES` with the 413 client error; in both cases the
call trace is empty — no parsing, embedding, vector search or completion
call happens for the request. -/
theorem upload_validation_rejects (env : QueryEnv) (q : String)
    (f : UploadFile) :
    (f.content_type ∉ ALLOWED_MIME_TYPES →
      analyze_document env q (some f) =
        (.error ⟨415, "Unsupported file type '" ++ f.content_type ++
            "'. Allowed: " ++ allowedTypesJoined⟩, [])) ∧
    (f.content_type ∈ ALLOWED_MIME_TYPES →
      MAX_FILE_BYTES < f.size →
      analyze_document env q (some f) =
        (.error ⟨413, "File exceeds " ++ toString MAX_FILE_MB ++
            "MB limit."⟩, [])) := by
  constructor
  · intro h
    simp [analyze_document, validate_file, h]
  · intro h1 h2
    simp [analyze_document, validate_file, h1, h2]

/-- Witness for C6: a `text/plain` upload gets the 415, an upload of
`MAX_FILE_BYTES + 1` bytes gets the 413, both with an empty call trace. -/
theorem upload_validation_rejects_witness :
    analyze_document qenvNoDocs "q" (some ⟨"text/plain", "a.txt", 10⟩) =
      (.error ⟨415, "Unsupported file type '" ++ "text/plain" ++
          "'. Allowed: " ++ allowedTypesJoined⟩, []) ∧
    analyze_document qenvNoDocs "q"
        (some ⟨"application/pdf", "a.pdf", MAX_FILE_BYTES + 1⟩) =
      (.error ⟨413, "File exceeds " ++ toString MAX_FILE_MB ++
          "MB limit."⟩, []) :=
  ⟨(upload_validation_rejects qenvNoDocs "q"
      ⟨"text/plain", "a.txt", 10⟩).1 (by decide),
   (upload_validation_rejects qenvNoDocs "q"
      ⟨"application/pdf", "a.pdf", MAX_FILE_BYTES + 1⟩).2
     (by decide) (by decide)⟩

/-- C1: a valid upload (allow-listed type, size within bound) whose
external parse returns an empty document list is rejected with the 400
"Empty parse result" client error, and the call trace holds the parse call
only — no embedding, vector search or completion call is made. -/
theorem empty_parse_result_rejected (env : QueryEnv) (q : String)
    (f : UploadFile)
    (h1 : f.content_type ∈ ALLOWED_MIME_TYPES)
    (h2 : f.size ≤ MAX_FILE_BYTES)
    (h3 : env.parse = .ok []) :
    analyze_document env q (some f) =
      (.error ⟨400, "Empty parse result for document."⟩, [.parseCall]) ∧
    (∀ s, CallEvent.embedCall s ∉ (analyze_document env q (some f)).2) ∧
    (∀ k s, CallEvent.searchCall k s ∉ (analyze_document env q (some f)).2) ∧
    (∀ p, CallEvent.completeCall p ∉ (analyze_document env q (some f)).2) := by
  have h2' : ¬ MAX_FILE_BYTES < f.size := Nat.not_lt.2 h2
  have hmain : analyze_document env q (some f) =
      (.error ⟨400, "Empty parse result for document."⟩, [.parseCall]) := by
    simp [analyze_document, validate_file, h1, h2', h3]
  refine ⟨hmain, fun s => ?_, fun k s => ?_, fun p => ?_⟩ <;>
    rw [hmain] <;> simp

/-- Witness for C1 at a concrete valid PDF upload with empty parse. -/
theorem empty_parse_result_rejected_witness :
    analyze_document qenvNoDocs "q" (some ⟨"application/pdf", "a.pdf", 10⟩) =
      (.error ⟨400, "Empty parse result for document."⟩, [.parseCall]) :=
  (empty_parse_result_rejected qenvNoDocs "q" ⟨"application/pdf", "a.pdf", 10⟩
    (by decide) (by decide) rfl).1

/-- C10: a valid upload whose parse returns a non-empty document list with
an empty first text is not rejected: the request proceeds and both the
outcome and the subsequent calls (embedding with the question-only label,
search, completion) are exactly those of the same request with no file —
only the parse call is prepended to the trace. -/
theorem empty_doc_text_proceeds (env : QueryEnv) (q : String) (f : UploadFile)
    (h1 : f.content_type ∈ ALLOWED_MIME_TYPES)
    (h2 : f.size ≤ MAX_FILE_BYTES)
    (d : ParsedDoc) (ds : List ParsedDoc)
    (h3 : env.parse = .ok (d :: ds)) (h4 : d.text = "") :
    analyze_document env q (some f) =
      ((analyze_document env q none).1,
       .parseCall :: (analyze_document env q none).2) := by
  have h2' : ¬ MAX_FILE_BYTES < f.size := Nat.not_lt.2 h2
  simp [analyze_document, validate_file, h1, h2', h3, h4]

/-- Witness for C10: a valid upload parsed to one empty-text document. -/
theorem empty_doc_text_proceeds_witness :
    analyze_document qenvEmptyDoc "q" (some ⟨"application/pdf", "a.pdf", 10⟩) =
      ((analyze_document qenvEmptyDoc "q" none).1,
       .parseCall :: (analyze_document qenvEmptyDoc "q" none).2) :=
  empty_doc_text_proceeds qenvEmptyDoc "q" ⟨"application/pdf", "a.pdf", 10⟩
    (by decide) (by decide) ⟨""⟩ [] rfl rfl

/-- C4: the text handed to the embedding client is exactly the composed
query: the question-only label plus the question when no file is uploaded
(and likewise when the parsed document text is empty), and the labeled
document section followed by the labeled question section when document
text is present. -/
theorem composed_query_text_form (env : QueryEnv) (q : String) :
    (embedTexts (analyze_document env q none).2 =
      ["USER'S QUESTION ONLY:\n" ++ q]) ∧
    (∀ f d ds, f.content_type ∈ ALLOWED_MIME_TYPES →
      f.size ≤ MAX_FILE_BYTES → env.parse = .ok (d :: ds) → d.text ≠ "" →
      embedTexts (analyze_document env q (some f)).2 =
        ["USER'S DOCUMENT:\n" ++ d.text ++ "\n\nUSER'S QUESTION:\n" ++ q]) ∧
    (∀ f d ds, f.content_type ∈ ALLOWED_MIME_TYPES →
      f.size ≤ MAX_FILE_BYTES → env.parse = .ok (d :: ds) → d.text = "" →
      embedTexts (analyze_document env q (some f)).2 =
        ["USER'S QUESTION ONLY:\n" ++ q]) := by
  refine ⟨?_, ?_, ?_⟩
  · simp [analyze_document, ragPipeline, embedTexts, combined_query_text]
  · intro f d ds h1 h2 h3 h4
    have h2' : ¬ MAX_FILE_BYTES < f.size := Nat.not_lt.2 h2
    simp [analyze_document, validate_file, ragPipeline, embedTexts,
      combined_query_text, h1, h2', h3, h4]
  · intro f d ds h1 h2 h3 h4
    have h2' : ¬ MAX_FILE_BYTES < f.size := Nat.not_lt.2 h2
    simp [analyze_document, validate_file, ragPipeline, embedTexts,
      combined_query_text, h1, h2', h3, h4]

/-- Witness for C4: the question-only form with no file, and the
document-plus-question form for a parsed document "DOC". -/
theorem composed_query_text_form_witness :
    embedTexts (analyze_document qenvNoDocs "what?" none).2 =
      ["USER'S QUESTION ONLY:\n" ++ "what?"] ∧
    embedTexts (analyze_document (qenvDoc "DOC") "what?"
        (some ⟨"application/pdf", "a.pdf", 10⟩)).2 =
      ["USER'S DOCUMENT:\n" ++ "DOC" ++ "\n\nUSER'S QUESTION:\n" ++ "what?"] :=
  ⟨(composed_query_text_form qenvNoDocs "what?").1,
   (composed_query_text_form (qenvDoc "DOC") "what?").2.1
     ⟨"application/pdf", "a.pdf", 10⟩ ⟨"DOC"⟩ []
     (by decide) (by decide) rfl (by decide)⟩

theorem join_cons (a : String) (l : List String) :
    String.join (a :: l) = a ++ String.join l := by
  apply String.ext
  simp [String.join_eq, String.data_append]

theorem chunk_foldl_eq_join :
    ∀ (l : List (Nat × SearchResult)) (acc : String),
      l.foldl (fun a p => a ++ chunkEntry p.1 p.2) acc =
        acc ++ String.join (l.map fun p => chunkEntry p.1 p.2) := by
  intro l
  induction l with
  | nil =>
    intro acc
    apply String.ext
    simp [String.join_eq, String.data_append]
  | cons x xs ih =>
    intro acc
    simp only [List.foldl_cons, List.map_cons]
    rw [ih (acc ++ chunkEntry x.1 x.2), join_cons, String.append_assoc]

/-- Every success of the endpoint reports as `retrieved_sources_count` the
number of hits the store returned. -/
theorem analyze_success_count (env : QueryEnv) (q : String)
    (file : Option UploadFile) (resp : RAGResponse)
    (h : (analyze_document env q file).1 = .ok resp) :
    resp.retrieved_sources_count = env.search_results.length := by
  have hrag : ∀ udt r, (ragPipeline env q udt).1 = .ok r →
      r.retrieved_sources_count = env.search_results.length := by
    intro udt r hr
    simp only [ragPipeline] at hr
    injection hr with hr
    rw [← hr]
  rcases file with _ | f
  · exact hrag "" resp h
  · simp only [analyze_document] at h
    split at h
    · simp at h
    · rename_i u heq
      by_cases hsz : MAX_FILE_BYTES < f.size
      · rw [if_pos hsz] at h
        simp at h
      · rw [if_neg hsz] at h
        cases hp : env.parse with
        | error m => rw [hp] at h; simp at h
        | ok docs =>
          rw [hp] at h
          cases docs with
          | nil => simp at h
          | cons d ds => exact hrag d.text resp h

/-- C5: with zero hits the grounding block is the explicit notice; with
hits it is the ordered concatenation, one entry per hit, of the
"Legal Chunk i+1" citation header (filename, page, paragraph) followed by
that hit's stored text; the prompt handed to the completion service embeds
that block via `final_prompt`; and the response's
`retrieved_sources_count` equals the number of hits. -/
theorem grounding_block_citations (results : List SearchResult) :
    (results = [] → legal_chunks_text results = NO_CHUNKS_NOTICE) ∧
    (results ≠ [] →
      legal_chunks_text results =
        String.join (results.enum.map fun p => chunkEntry p.1 p.2)) ∧
    (∀ env q, env.search_results = results →
      completeTexts (analyze_document env q none).2 =
        [final_prompt q "" (legal_chunks_text results)]) ∧
    (∀ env q file resp, env.search_results = results →
      (analyze_document env q file).1 = .ok resp →
      resp.retrieved_sources_count = results.length) := by
  refine ⟨?_, ?_, ?_, ?_⟩
  · intro h
    rw [h]
    rfl
  · intro h
    unfold legal_chunks_text
    rw [if_neg (by simpa using h), chunk_foldl_eq_join results.enum ""]
    apply String.ext
    simp [String.data_append]
  · intro env q hres
    simp [analyze_document, ragPipeline, completeTexts, hres]
  · intro env q file resp hres hok
    rw [← hres]
    exact analyze_success_count env q file resp hok

/-- Witness for C5: two concrete hits produce the two-entry concatenation
and a `retrieved_sources_count` of 2; the empty hit list produces the
notice. -/
theorem grounding_block_citations_witness :
    legal_chunks_text [] = NO_CHUNKS_NOTICE ∧
    legal_chunks_text [⟨some ⟨some "f.pdf", some 2, some 3, some "txt"⟩⟩, ⟨none⟩] =
      String.join (([⟨some ⟨some "f.pdf", some 2, some 3, some "txt"⟩⟩,
          (⟨none⟩ : SearchResult)].enum).map fun p => chunkEntry p.1 p.2) ∧
    ∀ resp, (analyze_document ⟨.ok [], [⟨none⟩, ⟨none⟩], fun _ => "a"⟩
        "q" none).1 = .ok resp → resp.retrieved_sources_count = 2 :=
  ⟨(grounding_block_citations []).1 rfl,
   (grounding_block_citations _).2.1 (List.cons_ne_nil _ _),
   fun resp h => (grounding_block_citations [⟨none⟩, ⟨none⟩]).2.2.2
     ⟨.ok [], [⟨none⟩, ⟨none⟩], fun _ => "a"⟩ "q" none resp rfl h⟩

end RAGCite
